import Mathlib

/-!
Shallow embedding of the query-core engine (retryer, notify manager,
focus/online managers, mutation cache, query client) of the repository,
together with theorems settling the specification claims about it.

Sources embedded:
  packages/query-core/src/retryer.ts
  packages/query-core/src/notifyManager.ts
  packages/query-core/src/subscribable.ts  (FocusManager part)
  packages/query-core/src/queryClient.ts
  unnamed/part_002                          (MutationCache)
-/

namespace QueryCore

/-! ### Network modes and the retryer (retryer.ts) -/

/-- NetworkMode from types.ts: `'online' | 'always' | 'offlineFirst'`. -/
inductive NetworkMode where
  | online
  | always
  | offlineFirst
deriving DecidableEq, Repr

/-- RetryValue from retryer.ts: `boolean | number | ShouldRetryFunction`.
The error type is a parameter `E`. -/
inductive RetryValue (E : Type) where
  | bool (b : Bool)
  | num (n : Nat)
  | pred (f : Nat → E → Bool)

/-- Embedding of the `shouldRetry` computation in `createRetryer`'s
rejection handler (retryer.ts):
`retry === true || (typeof retry === 'number' && failureCount < retry) ||
 (typeof retry === 'function' && retry(failureCount, error))`. -/
def shouldRetry {E : Type} (retry : RetryValue E) (failureCount : Nat) (e : E) : Bool :=
  match retry with
  | .bool b => b
  | .num n => failureCount < n
  | .pred f => f failureCount e

/-- Embedding of `config.retry ?? (isServer ? 0 : 3)` (retryer.ts). -/
def effectiveRetry {E : Type} (retry : Option (RetryValue E)) (isServer : Bool) :
    RetryValue E :=
  retry.getD (.num (if isServer then 0 else 3))

/-- Outcome of the rejection handler in `run` (retryer.ts): either the
rejection is ignored (already resolved), or the external promise is rejected
with the error, or the attempt is retried (increment failureCount, onFail,
sleep, re-enter run). -/
inductive RejectionOutcome (E : Type) where
  | ignore
  | reject (e : E)
  | retryAttempt

/-- Embedding of the `.catch((error) => ...)` handler of `run` in
`createRetryer` (retryer.ts): stop if resolved; compute the effective retry
value and `shouldRetry`; if `isRetryCancelled || !shouldRetry` reject the
external promise with the error; otherwise retry. -/
def handleRejection {E : Type} (cfgRetry : Option (RetryValue E)) (isServer : Bool)
    (isResolved isRetryCancelled : Bool) (failureCount : Nat) (e : E) :
    RejectionOutcome E :=
  if isResolved then .ignore
  else
    let retry := effectiveRetry cfgRetry isServer
    if isRetryCancelled || !(shouldRetry retry failureCount e) then .reject e
    else .retryAttempt

/-- Embedding of `canFetch` (retryer.ts):
`(networkMode ?? 'online') === 'online' ? onlineManager.isOnline() : true`.
The online manager's state is passed in as `isOnline`. -/
def canFetch (networkMode : Option NetworkMode) (isOnline : Bool) : Bool :=
  if networkMode.getD .online = .online then isOnline else true

/-- Embedding of the `canContinue` closure in `createRetryer` (retryer.ts):
`focusManager.isFocused() && (config.networkMode === 'always' ||
 onlineManager.isOnline()) && config.canRun()`. -/
def canContinue (networkMode : Option NetworkMode)
    (isFocused isOnline canRun : Bool) : Bool :=
  isFocused && (decide (networkMode = some .always) || isOnline) && canRun

/-- Embedding of the `canStart` closure in `createRetryer` (retryer.ts):
`canFetch(config.networkMode) && config.canRun()`. -/
def canStart (networkMode : Option NetworkMode) (isOnline canRun : Bool) : Bool :=
  canFetch networkMode isOnline && canRun

/-! ### NotifyManager (notifyManager.ts)

Callbacks are modelled as abstract labels (`Nat`).  Calls handed to the
pluggable `scheduleFn` are recorded as `Task`s in the state: a `direct`
task is `scheduleFn(() => notifyFn(callback))` issued by `schedule`
outside a transaction, and a `flushed` task is the single
`scheduleFn(() => batchNotifyFn(() => originalQueue.forEach(notifyFn)))`
issued by `flush`. -/

/-- Callback labels. -/
abbrev Cb := Nat

/-- One call handed to `scheduleFn`. -/
inductive Task where
  | direct (cb : Cb)
  | flushed (cbs : List Cb)
deriving DecidableEq, Repr

/-- Callbacks delivered (each through one `notifyFn` call) when a scheduled
task eventually runs, in delivery order.  A `flushed` task wraps its queue in
one `batchNotifyFn` call and delivers it in order via `forEach`. -/
def Task.deliveries : Task → List Cb
  | .direct cb => [cb]
  | .flushed cbs => cbs

/-- State of `createNotifyManager` (notifyManager.ts): the pending `queue`,
the `transactions` depth, and the list of tasks handed to `scheduleFn` so
far. -/
structure NMState where
  queue : List Cb
  transactions : Nat
  tasks : List Task
deriving DecidableEq, Repr

/-- Embedding of `schedule` (notifyManager.ts): inside a transaction the
callback is pushed on the queue; otherwise `scheduleFn(() => notifyFn(cb))`
is issued directly. -/
def NM.schedule (cb : Cb) (s : NMState) : NMState :=
  if s.transactions ≠ 0 then { s with queue := s.queue ++ [cb] }
  else { s with tasks := s.tasks ++ [.direct cb] }

/-- Embedding of `flush` (notifyManager.ts): take the current queue, empty
it, and if it was non-empty issue one `scheduleFn` task that runs
`batchNotifyFn(() => originalQueue.forEach(notifyFn))`. -/
def NM.flush (s : NMState) : NMState :=
  let originalQueue := s.queue
  let s' := { s with queue := [] }
  if originalQueue.isEmpty then s'
  else { s' with tasks := s'.tasks ++ [.flushed originalQueue] }

/-- Embedding of `batch` (notifyManager.ts): increment `transactions`, run
the callback, and in the `finally` block decrement `transactions` and flush
when the depth is back at 0; the callback's result (normal return `.ok` or
thrown exception `.error`) is then propagated. -/
def NM.batch {E A : Type} (callback : NMState → Except E A × NMState) (s : NMState) :
    Except E A × NMState :=
  let s1 : NMState := { s with transactions := s.transactions + 1 }
  let r : Except E A × NMState := callback s1
  let s2 : NMState := { r.2 with transactions := r.2.transactions - 1 }
  (r.1, if s2.transactions = 0 then NM.flush s2 else s2)

/-! ### FocusManager and OnlineManager (subscribable.ts, retryer.ts)

Listeners are modelled as abstract labels (`Nat`); a manager call returns the
updated state together with the list of `(listener, value)` notifications it
delivered via `listeners.forEach`. -/

/-- State of the `OnlineManager` singleton (retryer.ts): the private
`#online` boolean (initialised `true`) and the subscribed listeners. -/
structure OMState where
  online : Bool
  listeners : List Nat
deriving DecidableEq, Repr

/-- Embedding of `OnlineManager.setOnline` (retryer.ts):
`const changed = this.#online !== online; if (changed) { this.#online =
online; this.listeners.forEach((listener) => { listener(online) }) }`. -/
def OnlineManager.setOnline (online : Bool) (s : OMState) :
    OMState × List (Nat × Bool) :=
  let changed := s.online != online
  if changed then
    ({ s with online := online }, s.listeners.map (fun l => (l, online)))
  else (s, [])

/-- Embedding of `OnlineManager.isOnline` (retryer.ts). -/
def OnlineManager.isOnline (s : OMState) : Bool :=
  s.online

/-- State of the `FocusManager` singleton (subscribable.ts): the private
`#focused : boolean | undefined`, the platform visibility bit feeding
`globalThis.document?.visibilityState !== 'hidden'`, and the listeners. -/
structure FMState where
  focused : Option Bool
  docVisibilityNotHidden : Bool
  listeners : List Nat
deriving DecidableEq, Repr

/-- Embedding of `FocusManager.isFocused` (subscribable.ts): a stored
boolean wins, otherwise focus is derived from document visibility. -/
def FocusManager.isFocused (s : FMState) : Bool :=
  match s.focused with
  | some b => b
  | none => s.docVisibilityNotHidden

/-- Embedding of `FocusManager.onFocus` (subscribable.ts): notify every
listener with the current `isFocused()`. -/
def FocusManager.onFocus (s : FMState) : List (Nat × Bool) :=
  s.listeners.map (fun l => (l, FocusManager.isFocused s))

/-- Embedding of `FocusManager.setFocused` (subscribable.ts):
`const changed = this.#focused !== focused; if (changed) { this.#focused =
focused; this.onFocus() }`. -/
def FocusManager.setFocused (focused : Option Bool) (s : FMState) :
    FMState × List (Nat × Bool) :=
  let changed := s.focused != focused
  if changed then
    let s' := { s with focused := focused }
    (s', FocusManager.onFocus s')
  else (s, [])

/-! ### MutationCache (unnamed/part_002)

A mutation is modelled by the attributes the cache consults: its identity
(`mutationId`), `options.scope?.id`, `state.status` and `state.isPaused`.
Events emitted through `notify` (which fans out to the cache listeners
inside `notifyManager.batch`) are recorded in an event list. -/

/-- Mutation status from mutation.ts:
`'idle' | 'pending' | 'success' | 'error'`. -/
inductive MutationStatus where
  | idle
  | pending
  | success
  | error
deriving DecidableEq, Repr

/-- The attributes of a `Mutation` consulted by `MutationCache`. -/
structure MutationM where
  mutationId : Nat
  scopeId : Option String
  status : MutationStatus
  isPaused : Bool
deriving DecidableEq, Repr

/-- Embedding of the module-level `scopeFor` helper (unnamed/part_002):
`mutation.options.scope?.id`. -/
def scopeFor (m : MutationM) : Option String :=
  m.scopeId

/-- MutationCache events relevant here (`added` / `removed`). -/
inductive MCEvent where
  | added (m : MutationM)
  | removed (m : MutationM)
deriving DecidableEq, Repr

/-- State of a `MutationCache` (unnamed/part_002): the `#mutations` set (in
insertion order), the `#scopes` index `scopeId → ordered list`, and the
events emitted so far. -/
structure MCState where
  mutations : List MutationM
  scopes : List (String × List MutationM)
  events : List MCEvent
deriving DecidableEq, Repr

/-- Lookup in the `#scopes` map (`Map.get`). -/
def scopesGet (scopes : List (String × List MutationM)) (scope : String) :
    Option (List MutationM) :=
  (scopes.find? (fun p => p.1 == scope)).map (fun p => p.2)

/-- Update in the `#scopes` map (`Map.set`), keeping key order. -/
def scopesSet (scopes : List (String × List MutationM)) (scope : String)
    (l : List MutationM) : List (String × List MutationM) :=
  if (scopes.find? (fun p => p.1 == scope)).isSome then
    scopes.map (fun p => if p.1 == scope then (p.1, l) else p)
  else scopes ++ [(scope, l)]

/-- Deletion in the `#scopes` map (`Map.delete`). -/
def scopesDelete (scopes : List (String × List MutationM)) (scope : String) :
    List (String × List MutationM) :=
  scopes.filter (fun p => p.1 != scope)

/-- Embedding of `MutationCache.remove` (unnamed/part_002): when
`#mutations.delete(mutation)` succeeds, fix up the scope list (splice when
it has more than one entry, delete the scope when its only entry is the
mutation); then — in every case — notify `{ type: 'removed', mutation }`. -/
def MutationCache.remove (m : MutationM) (s : MCState) : MCState :=
  let s1 :=
    if s.mutations.contains m then
      let s' := { s with mutations := s.mutations.erase m }
      match scopeFor m with
      | some scope =>
        match scopesGet s'.scopes scope with
        | some scopedMutations =>
          if scopedMutations.length > 1 then
            { s' with scopes := scopesSet s'.scopes scope (scopedMutations.erase m) }
          else if scopedMutations.head? = some m then
            { s' with scopes := scopesDelete s'.scopes scope }
          else s'
        | none => s'
      | none => s'
    else s
  { s1 with events := s1.events ++ [MCEvent.removed m] }

/-- Embedding of `MutationCache.canRun` (unnamed/part_002): a scoped
mutation can run iff its scope list has no pending mutation or its first
pending mutation is the mutation itself; an unscoped mutation always can. -/
def MutationCache.canRun (s : MCState) (m : MutationM) : Bool :=
  match scopeFor m with
  | some scope =>
    let mutationsWithSameScope := scopesGet s.scopes scope
    let firstPendingMutation :=
      mutationsWithSameScope.bind
        (fun l => l.find? (fun x => x.status == .pending))
    match firstPendingMutation with
    | none => true
    | some fp => fp == m
  | none => true

/-- Embedding of `MutationCache.resumePausedMutations` (unnamed/part_002):
`continue()` is called (errors swallowed) on exactly the mutations whose
`state.isPaused` holds; the returned list records them in cache order. -/
def MutationCache.resumePausedMutations (s : MCState) : List MutationM :=
  s.mutations.filter (fun x => x.isPaused)

/-! ### QueryClient (queryClient.ts)

Promises are modelled as settled outcomes: `Except.ok` a fulfilled value,
`Except.error` a rejection. -/

/-- Embedding of `promise.then(onFulfilled)` on a settled promise. -/
def promiseThen {E A B : Type} (p : Except E A) (onFulfilled : A → B) :
    Except E B :=
  match p with
  | .ok a => .ok (onFulfilled a)
  | .error e => .error e

/-- Embedding of `promise.catch(onRejected)` on a settled promise. -/
def promiseCatch {E A : Type} (p : Except E A) (onRejected : E → A) :
    Except E A :=
  match p with
  | .ok a => .ok a
  | .error e => .ok (onRejected e)

/-- Embedding of `noop` (utils.ts): returns `undefined`. -/
def noop : Unit :=
  ()

/-- Embedding of `QueryClient.prefetchQuery` (queryClient.ts):
`this.fetchQuery(options).then(noop).catch(noop)`, applied to the settled
outcome of the underlying `fetchQuery` promise. -/
def QueryClient.prefetchQuery {E D : Type} (fetchQueryResult : Except E D) :
    Except E Unit :=
  promiseCatch (promiseThen fetchQueryResult (fun _ => noop)) (fun _ => noop)

/-- Embedding of `QueryClient.prefetchInfiniteQuery` (queryClient.ts):
`this.fetchInfiniteQuery(options).then(noop).catch(noop)`, applied to the
settled outcome of the underlying `fetchInfiniteQuery` promise (itself a
`fetchQuery` with the infinite-query behavior installed). -/
def QueryClient.prefetchInfiniteQuery {E D : Type}
    (fetchInfiniteQueryResult : Except E D) : Except E Unit :=
  promiseCatch (promiseThen fetchInfiniteQueryResult (fun _ => noop)) (fun _ => noop)

/-- Embedding of the retry defaulting step of `QueryClient.fetchQuery`
(queryClient.ts): `if (defaultedOptions.retry === undefined)
{ defaultedOptions.retry = false }`, applied to the `retry` field of the
defaulted options before the query is built and fetched. -/
def QueryClient.fetchQueryRetry {E : Type} (defaultedRetry : Option (RetryValue E)) :
    Option (RetryValue E) :=
  if defaultedRetry.isNone then some (.bool false) else defaultedRetry

/-- Which path `QueryClient.ensureQueryData` takes. -/
inductive EnsurePath where
  | fetchPath
  | cachedPath
deriving DecidableEq, Repr

/-- Embedding of the branch of `QueryClient.ensureQueryData`
(queryClient.ts): `cachedData === undefined ? this.fetchQuery(options) :
Promise.resolve(cachedData)` (the revalidate-if-stale prefetch aside). -/
def QueryClient.ensureQueryDataPath {D : Type} (cachedData : Option D) :
    EnsurePath :=
  if cachedData.isNone then .fetchPath else .cachedPath

/-- Embedding of `QueryClient.resumePausedMutations` (queryClient.ts):
`if (onlineManager.isOnline()) return
this.#mutationCache.resumePausedMutations(); return Promise.resolve()`.
`some resumed` records that the cache method was called and which mutations
it continues; `none` records the immediately resolved promise with the
cache method not called. -/
def QueryClient.resumePausedMutations (isOnline : Bool) (s : MCState) :
    Option (List MutationM) :=
  if isOnline then some (MutationCache.resumePausedMutations s) else none

/-- Embedding of the focus subscription installed by `QueryClient.mount`
(queryClient.ts): `focusManager.subscribe(async (focused) => { if (focused)
{ await this.resumePausedMutations(); this.#queryCache.onFocus() } })`. -/
def QueryClient.mountFocusListener (focused isOnline : Bool) (s : MCState) :
    Option (List MutationM) :=
  if focused then QueryClient.resumePausedMutations isOnline s else none

/-- Embedding of the online subscription installed by `QueryClient.mount`
(queryClient.ts): the listener receives the new online state, which is also
what `onlineManager.isOnline()` reports inside `resumePausedMutations`
(the manager stores the value before notifying). -/
def QueryClient.mountOnlineListener (online : Bool) (s : MCState) :
    Option (List MutationM) :=
  if online then QueryClient.resumePausedMutations online s else none

end QueryCore

namespace QueryCore

/-! ### Helper lemmas -/

/-- Closed form of `NM.flush`. -/
theorem NM.flush_eq (u : NMState) :
    NM.flush u = if u.queue = [] then { u with queue := ([] : List Cb) }
      else { u with queue := [], tasks := u.tasks ++ [Task.flushed u.queue] } := by
  unfold NM.flush
  rcases h : u.queue with _ | ⟨c, cs⟩ <;> simp [h]

/-- Characterisation of `List.find?` as the first element satisfying the
predicate. -/
theorem find?_eq_some_iff_first {α : Type} (p : α → Bool) (l : List α) (a : α) :
    l.find? p = some a ↔
      p a = true ∧ ∃ l1 l2, l = l1 ++ a :: l2 ∧ ∀ x ∈ l1, ¬ p x := by
  constructor
  · intro h
    induction l with
    | nil => simp at h
    | cons x xs ih =>
      rw [List.find?_cons] at h
      by_cases hp : p x
      · simp [hp] at h
        subst h
        exact ⟨hp, [], xs, rfl, by simp⟩
      · simp [hp] at h
        obtain ⟨hpa, l1, l2, rfl, hnp⟩ := ih h
        exact ⟨hpa, x :: l1, l2, rfl, by simpa [hp] using hnp⟩
  · rintro ⟨hpa, l1, l2, rfl, hnp⟩
    induction l1 with
    | nil => simp [List.find?_cons, hpa]
    | cons x xs ih =>
      have hx' : p x = false := by simpa using hnp x (by simp)
      simp only [List.cons_append, List.find?_cons, hx', cond_false]
      exact ih (fun y hy => hnp y (List.mem_cons_of_mem _ hy))

/-! ### Theorems for the retryer claims -/

/-- C1: when an attempt rejects with error `e` and the retryer is not yet
resolved, it retries exactly when the effective retry option is `true`, or a
number `n` with `failureCount < n`, or a function returning true on
`(failureCount, e)`; the unset option defaults to 3 (0 on the server); if
the retry-cancel flag is set or retry is denied, the external promise is
rejected with `e`; and `retry = 0` never retries. -/
theorem retryer_rejection_spec {E : Type} (cfgRetry : Option (RetryValue E))
    (isServer isResolved isRetryCancelled : Bool) (failureCount : Nat) (e : E)
    (hres : isResolved = false) :
    (handleRejection cfgRetry isServer isResolved isRetryCancelled failureCount e
        = .retryAttempt ↔
      isRetryCancelled = false ∧
        shouldRetry (effectiveRetry cfgRetry isServer) failureCount e = true) ∧
    (handleRejection cfgRetry isServer isResolved isRetryCancelled failureCount e
        = .reject e ↔
      isRetryCancelled = true ∨
        shouldRetry (effectiveRetry cfgRetry isServer) failureCount e = false) ∧
    effectiveRetry (E := E) none isServer = .num (if isServer then 0 else 3) ∧
    shouldRetry (E := E) (.num 0) failureCount e = false := by
  subst hres
  refine ⟨?_, ?_, rfl, by simp [shouldRetry]⟩
  · unfold handleRejection
    cases h : shouldRetry (effectiveRetry cfgRetry isServer) failureCount e <;>
      cases isRetryCancelled <;> simp [h]
  · unfold handleRejection
    cases h : shouldRetry (effectiveRetry cfgRetry isServer) failureCount e <;>
      cases isRetryCancelled <;> simp [h]

/-- Witness for C1 at concrete inputs: with `retry = 2`, `failureCount = 1`
and no cancel flag, the retryer retries; `retry = 0` never retries. -/
theorem retryer_rejection_spec_witness :
    (handleRejection (E := Nat) (some (.num 2)) false false false 1 7
        = .retryAttempt ↔
      false = false ∧ shouldRetry (effectiveRetry (E := Nat) (some (.num 2)) false) 1 7 = true) ∧
    (handleRejection (E := Nat) (some (.num 2)) false false false 1 7
        = .reject 7 ↔
      false = true ∨
        shouldRetry (effectiveRetry (E := Nat) (some (.num 2)) false) 1 7 = false) ∧
    effectiveRetry (E := Nat) none false = .num (if false = true then 0 else 3) ∧
    shouldRetry (E := Nat) (.num 0) 1 7 = false :=
  retryer_rejection_spec (some (.num 2)) false false false 1 7 rfl

/-- C2: `canContinue` is true exactly when focused AND (networkMode is
`'always'` OR online) AND `canRun()`; `canFetch` consults the online state
only when the defaulted network mode is `'online'`; and
`networkMode = 'always'` ignores the online state both in `canStart` and in
`canContinue`. -/
theorem retryer_canContinue_canFetch_spec (networkMode : Option NetworkMode)
    (isFocused isOnline isOnline' canRun : Bool) :
    (canContinue networkMode isFocused isOnline canRun = true ↔
      isFocused = true ∧ (networkMode = some .always ∨ isOnline = true) ∧
        canRun = true) ∧
    canFetch none isOnline = isOnline ∧
    canFetch (some .online) isOnline = isOnline ∧
    canFetch (some .always) isOnline = canFetch (some .always) isOnline' ∧
    canFetch (some .offlineFirst) isOnline = canFetch (some .offlineFirst) isOnline' ∧
    canStart (some .always) isOnline canRun = canStart (some .always) isOnline' canRun ∧
    canContinue (some .always) isFocused isOnline canRun
      = canContinue (some .always) isFocused isOnline' canRun := by
  refine ⟨?_, rfl, rfl, rfl, rfl, rfl, ?_⟩
  · simp [canContinue, Bool.and_eq_true, Bool.or_eq_true]
    tauto
  · simp [canContinue]

/-- C4: `batch(fn)` increments the transaction depth, runs `fn`, and in the
`finally` block decrements the depth whether or not `fn` threw; whenever the
depth returns to 0 (also when `fn` threw) the pending queue is taken and
flushed (one `flushed` task when non-empty, none when empty, and no flush at
positive remaining depth); the result — normal or thrown — is `fn`'s. -/
theorem notifyManager_batch_spec {E A : Type}
    (callback : NMState → Except E A × NMState) (s : NMState)
    (hdepth : (callback { s with transactions := s.transactions + 1 }).2.transactions
      = s.transactions + 1) :
    (NM.batch callback s).1
        = (callback { s with transactions := s.transactions + 1 }).1 ∧
    (NM.batch callback s).2.transactions = s.transactions ∧
    (s.transactions = 0 →
      (NM.batch callback s).2.queue = [] ∧
      ((callback { s with transactions := s.transactions + 1 }).2.queue = [] →
        (NM.batch callback s).2.tasks
          = (callback { s with transactions := s.transactions + 1 }).2.tasks) ∧
      ((callback { s with transactions := s.transactions + 1 }).2.queue ≠ [] →
        (NM.batch callback s).2.tasks
          = (callback { s with transactions := s.transactions + 1 }).2.tasks
              ++ [Task.flushed
                    (callback { s with transactions := s.transactions + 1 }).2.queue])) ∧
    (s.transactions ≠ 0 →
      (NM.batch callback s).2
        = { (callback { s with transactions := s.transactions + 1 }).2 with
            transactions := s.transactions }) := by
  rcases hr : callback { s with transactions := s.transactions + 1 } with ⟨res, t⟩
  have ht : t.transactions - 1 = s.transactions := by
    rw [hr] at hdepth
    simp only at hdepth
    omega
  have hb : NM.batch callback s
      = (res, if s.transactions = 0
                then NM.flush { t with transactions := s.transactions }
                else { t with transactions := s.transactions }) := by
    simp [NM.batch, hr, ht]
  rw [hb]
  rcases Nat.eq_zero_or_pos s.transactions with h0 | hpos
  · rw [if_pos h0]
    refine ⟨rfl, ?_, fun _ => ⟨?_, ?_, ?_⟩, fun hne => absurd h0 hne⟩
    · rw [NM.flush_eq]
      split <;> rfl
    · rw [NM.flush_eq]
      split <;> rfl
    · intro hq
      have hq' : t.queue = [] := hq
      simp [NM.flush_eq, hq']
    · intro hq
      have hq' : t.queue ≠ [] := hq
      simp [NM.flush_eq, hq']
  · have hne : s.transactions ≠ 0 := Nat.pos_iff_ne_zero.mp hpos
    rw [if_neg hne]
    exact ⟨rfl, rfl, fun h => absurd h hne, fun _ => rfl⟩

/-- Witness for C4 at a concrete input: a callback that schedules callback 5
and then throws error 0, run by `batch` at depth 0, still propagates the
error, restores depth 0, and flushes the queued callback as one task. -/
theorem notifyManager_batch_spec_witness :
    (NM.batch (fun t => ((Except.error 0 : Except Nat Nat), NM.schedule 5 t))
        ⟨[], 0, []⟩).1 = Except.error 0 ∧
    (NM.batch (fun t => ((Except.error 0 : Except Nat Nat), NM.schedule 5 t))
        ⟨[], 0, []⟩).2.transactions = 0 ∧
    (NM.batch (fun t => ((Except.error 0 : Except Nat Nat), NM.schedule 5 t))
        ⟨[], 0, []⟩).2.queue = [] ∧
    (NM.batch (fun t => ((Except.error 0 : Except Nat Nat), NM.schedule 5 t))
        ⟨[], 0, []⟩).2.tasks = [Task.flushed [5]] := by
  have h := notifyManager_batch_spec
    (fun t => ((Except.error 0 : Except Nat Nat), NM.schedule 5 t))
    ⟨[], 0, []⟩ (by simp [NM.schedule])
  refine ⟨h.1, h.2.1, (h.2.2.1 rfl).1, ?_⟩
  have ht := (h.2.2.1 rfl).2.2 (by simp [NM.schedule])
  simpa [NM.schedule] using ht

/-- C5: at positive depth `schedule` appends the callback to the pending
queue and issues no task; at depth 0 it hands `notifyFn(cb)` to `scheduleFn`
directly; `flush` on a non-empty queue empties it and issues exactly one
task which delivers the queued callbacks in enqueue order inside one
`batchNotifyFn` wrapper; `flush` on an empty queue issues no task. -/
theorem notifyManager_schedule_flush_spec (cb : Cb) (s : NMState) :
    (0 < s.transactions →
      NM.schedule cb s = { s with queue := s.queue ++ [cb] }) ∧
    (s.transactions = 0 →
      NM.schedule cb s = { s with tasks := s.tasks ++ [Task.direct cb] }) ∧
    (s.queue = [] → NM.flush s = { s with queue := [] }) ∧
    (s.queue ≠ [] →
      NM.flush s = { s with queue := [],
                            tasks := s.tasks ++ [Task.flushed s.queue] } ∧
      (Task.flushed s.queue).deliveries = s.queue) := by
  refine ⟨?_, ?_, ?_, ?_⟩
  · intro h
    have : s.transactions ≠ 0 := Nat.pos_iff_ne_zero.mp h
    simp [NM.schedule, this]
  · intro h
    simp [NM.schedule, h]
  · intro h
    simp [NM.flush, h]
  · intro h
    exact ⟨by simp [NM.flush, List.isEmpty_iff, h], rfl⟩

/-- Witness for C5 at concrete inputs: scheduling at depth 1 queues,
scheduling at depth 0 issues a direct task, flushing the queue `[1, 2]`
issues one task delivering `[1, 2]`, flushing an empty queue issues none. -/
theorem notifyManager_schedule_flush_spec_witness :
    NM.schedule 5 ⟨[1, 2], 1, []⟩ = (⟨[1, 2, 5], 1, []⟩ : NMState) ∧
    NM.schedule 5 ⟨[], 0, [Task.direct 9]⟩
      = (⟨[], 0, [Task.direct 9, Task.direct 5]⟩ : NMState) ∧
    NM.flush ⟨[], 3, []⟩ = (⟨[], 3, []⟩ : NMState) ∧
    (NM.flush ⟨[1, 2], 0, []⟩
      = (⟨[], 0, [Task.flushed [1, 2]]⟩ : NMState) ∧
      (Task.flushed [1, 2]).deliveries = [1, 2]) :=
  ⟨(notifyManager_schedule_flush_spec 5 ⟨[1, 2], 1, []⟩).1 (by decide),
   (notifyManager_schedule_flush_spec 5 ⟨[], 0, [Task.direct 9]⟩).2.1 rfl,
   (notifyManager_schedule_flush_spec 5 ⟨[], 3, []⟩).2.2.1 rfl,
   (notifyManager_schedule_flush_spec 5 ⟨[1, 2], 0, []⟩).2.2.2 (by decide)⟩

/-- C6: `OnlineManager.setOnline(b)` and `FocusManager.setFocused(b)` with a
boolean `b` notify the listeners — each once, with `b` — exactly when `b`
differs from the currently stored state; an unchanged value notifies no
listener. -/
theorem managers_notify_on_transition (b : Bool) (som : OMState) (sfm : FMState) :
    (som.online = b → OnlineManager.setOnline b som = (som, [])) ∧
    (som.online ≠ b →
      OnlineManager.setOnline b som
        = ({ som with online := b }, som.listeners.map (fun l => (l, b)))) ∧
    (sfm.focused = some b →
      FocusManager.setFocused (some b) sfm = (sfm, [])) ∧
    (sfm.focused ≠ some b →
      FocusManager.setFocused (some b) sfm
        = ({ sfm with focused := some b },
            sfm.listeners.map (fun l => (l, b)))) := by
  refine ⟨?_, ?_, ?_, ?_⟩
  · intro h
    simp [OnlineManager.setOnline, h]
  · intro h
    have hb : (som.online != b) = true := by simpa using h
    simp [OnlineManager.setOnline, hb]
  · intro h
    simp [FocusManager.setFocused, h]
  · intro h
    have hb : (sfm.focused != some b) = true := by simpa using h
    simp [FocusManager.setFocused, hb, FocusManager.onFocus, FocusManager.isFocused]

/-- Witness for C6 at concrete inputs: setting an unchanged online state
notifies nobody; an actual transition notifies every listener with the new
value; likewise for the focus manager. -/
theorem managers_notify_on_transition_witness :
    OnlineManager.setOnline true ⟨true, [1, 2]⟩ = (⟨true, [1, 2]⟩, []) ∧
    OnlineManager.setOnline true ⟨false, [1, 2]⟩
      = (⟨true, [1, 2]⟩, [(1, true), (2, true)]) ∧
    FocusManager.setFocused (some true) ⟨some true, true, [7]⟩
      = (⟨some true, true, [7]⟩, []) ∧
    FocusManager.setFocused (some true) ⟨some false, true, [7]⟩
      = (⟨some true, true, [7]⟩, [(7, true)]) :=
  ⟨(managers_notify_on_transition true ⟨true, [1, 2]⟩ ⟨some true, true, [7]⟩).1 rfl,
   (managers_notify_on_transition true ⟨false, [1, 2]⟩ ⟨some true, true, [7]⟩).2.1
     (by decide),
   (managers_notify_on_transition true ⟨true, [1, 2]⟩
     ⟨some true, true, [7]⟩).2.2.1 rfl,
   (managers_notify_on_transition true ⟨true, [1, 2]⟩
     ⟨some false, true, [7]⟩).2.2.2 (by decide)⟩

/-- C3: `MutationCache.canRun` returns true for every unscoped mutation; for
a mutation with scope id `sc` whose scope list is `l` it returns true iff no
mutation in `l` is pending, or the first pending mutation in `l` is the
mutation itself. -/
theorem mutationCache_canRun_spec (s : MCState) (m : MutationM) :
    (scopeFor m = none → MutationCache.canRun s m = true) ∧
    (∀ sc l, scopeFor m = some sc → scopesGet s.scopes sc = some l →
      (MutationCache.canRun s m = true ↔
        (∀ x ∈ l, x.status ≠ .pending) ∨
        (m.status = .pending ∧
          ∃ l1 l2, l = l1 ++ m :: l2 ∧ ∀ x ∈ l1, x.status ≠ .pending))) := by
  constructor
  · intro h
    simp [MutationCache.canRun, scopeFor] at h ⊢
    simp [h]
  · intro sc l hsc hget
    have hc : MutationCache.canRun s m
        = (match l.find? (fun x => x.status == .pending) with
           | none => true
           | some fp => fp == m) := by
      simp [MutationCache.canRun, hsc, hget]
    rw [hc]
    rcases hf : l.find? (fun x => x.status == .pending) with _ | fp
    · rw [hf]
      constructor
      · intro _
        exact Or.inl (fun x hx => by
          simpa using List.find?_eq_none.mp hf x hx)
      · intro _
        rfl
    · rw [hf]
      show (fp == m) = true ↔ _
      constructor
      · intro hfp
        have hfm : fp = m := by simpa using hfp
        subst hfm
        obtain ⟨hpa, l1, l2, hl, hnp⟩ :=
          (find?_eq_some_iff_first (fun x => x.status == .pending) l fp).mp hf
        refine Or.inr ⟨by simpa using hpa, l1, l2, hl, fun x hx => ?_⟩
        simpa using hnp x hx
      · rintro (hall | ⟨hpend, l1, l2, rfl, hl1⟩)
        · have hmem : fp ∈ l := List.mem_of_find?_eq_some hf
          have hp : (fp.status == MutationStatus.pending) = true :=
            List.find?_some
              (p := fun x : MutationM => x.status == MutationStatus.pending) hf
          exact absurd (by simpa using hp) (hall fp hmem)
        · have : (l1 ++ m :: l2).find? (fun x => x.status == .pending) = some m :=
            (find?_eq_some_iff_first (fun x => x.status == .pending)
              (l1 ++ m :: l2) m).mpr
              ⟨by simpa using hpend, l1, l2, rfl,
               fun x hx => by simpa using hl1 x hx⟩
          have : some fp = some m := by rw [← hf, this]
          simpa using this

/-- First mutation of the concrete scoped-serialization example. -/
def mA : MutationM :=
  ⟨1, some "x", .pending, false⟩

/-- Second mutation of the concrete scoped-serialization example. -/
def mB : MutationM :=
  ⟨2, some "x", .pending, true⟩

/-- A mutation cache whose scope `"x"` holds `mA` then `mB`. -/
def cacheX : MCState :=
  ⟨[mA, mB], [("x", [mA, mB])], []⟩

/-- Witness for C3 at a concrete input: in scope `"x"` with ordered list
`[mA, mB]`, both pending, `canRun` is characterised for `mA` (the head). -/
theorem mutationCache_canRun_spec_witness :
    MutationCache.canRun cacheX mA = true ↔
      (∀ x ∈ [mA, mB], x.status ≠ .pending) ∨
      (mA.status = .pending ∧
        ∃ l1 l2, [mA, mB] = l1 ++ mA :: l2 ∧ ∀ x ∈ l1, x.status ≠ .pending) :=
  (mutationCache_canRun_spec cacheX mA).2 "x" [mA, mB] rfl (by decide)

/-- C7: `MutationCache.remove` always emits exactly one `removed` event for
the mutation, also when the mutation was not in the cache's mutation set. -/
theorem mutationCache_remove_notifies (s : MCState) (m : MutationM) :
    (MutationCache.remove m s).events = s.events ++ [MCEvent.removed m] := by
  simp only [MutationCache.remove]
  repeat' split
  all_goals rfl

/-- C8: `prefetchQuery` and `prefetchInfiniteQuery` always resolve to
`undefined` and never reject, also when the underlying fetch rejects with a
terminal failure. -/
theorem prefetch_swallows_errors {E D D' : Type} (r : Except E D) (r' : Except E D') :
    QueryClient.prefetchQuery r = .ok () ∧
    QueryClient.prefetchInfiniteQuery r' = .ok () := by
  cases r <;> cases r' <;>
    simp [QueryClient.prefetchQuery, QueryClient.prefetchInfiniteQuery,
      promiseThen, promiseCatch, noop]

/-- C9: when the defaulted options leave `retry` undefined, `fetchQuery`
sets it to `false` before building and fetching, so a failing query function
is never retried — for every failure count and cancel flag the retryer
rejects — whereas the engine-wide default (`retry` unset, client side) would
have retried the first failure; `ensureQueryData` on a cache miss takes the
`fetchQuery` path. -/
theorem fetchQuery_retry_default_spec {E : Type}
    (defaultedRetry : Option (RetryValue E)) (h : defaultedRetry = none)
    (isServer : Bool) (failureCount : Nat) (e : E) :
    QueryClient.fetchQueryRetry defaultedRetry = some (.bool false) ∧
    (∀ isRetryCancelled : Bool,
      handleRejection (QueryClient.fetchQueryRetry defaultedRetry) isServer
        false isRetryCancelled failureCount e = .reject e) ∧
    handleRejection (E := E) none false false false 0 e = .retryAttempt ∧
    QueryClient.ensureQueryDataPath (none : Option Unit) = .fetchPath := by
  subst h
  refine ⟨rfl, ?_, rfl, rfl⟩
  intro isRetryCancelled
  cases isRetryCancelled <;>
    simp [QueryClient.fetchQueryRetry, handleRejection, effectiveRetry, shouldRetry]

/-- Witness for C9 at a concrete input: an undefined defaulted `retry`
becomes `false`, the retryer then rejects instead of retrying, and the unset
client-side default would have retried. -/
theorem fetchQuery_retry_default_spec_witness :
    QueryClient.fetchQueryRetry (none : Option (RetryValue Nat))
      = some (.bool false) ∧
    (∀ isRetryCancelled : Bool,
      handleRejection (QueryClient.fetchQueryRetry (none : Option (RetryValue Nat)))
        false false isRetryCancelled 2 7 = .reject 7) ∧
    handleRejection (E := Nat) none false false false 0 7 = .retryAttempt ∧
    QueryClient.ensureQueryDataPath (none : Option Unit) = .fetchPath :=
  fetchQuery_retry_default_spec none rfl false 2 7

/-- C10: with the online manager reporting offline,
`QueryClient.resumePausedMutations` resolves immediately without calling
`MutationCache.resumePausedMutations` (`none`), and neither the focus nor
the online subscription installed by `mount` resumes any paused mutation;
online, the cache method runs and continues exactly the paused mutations. -/
theorem resumePausedMutations_offline_spec (s : MCState) (focused : Bool) :
    QueryClient.resumePausedMutations false s = none ∧
    QueryClient.mountFocusListener focused false s = none ∧
    QueryClient.mountOnlineListener false s = none ∧
    QueryClient.resumePausedMutations true s
      = some (MutationCache.resumePausedMutations s) := by
  refine ⟨rfl, ?_, rfl, rfl⟩
  cases focused <;> rfl

end QueryCore
